import Mathlib

/-!
Verification of the rate-resolution and incremental-merge logic of the
bank-cap ETL pipeline.

The definitions below are shallow embeddings of:
- `MarketCapTransformer._get_exchange_rate` and
  `MarketCapTransformer._clean_numeric_value`
  (src/transform/market_cap_transformer.py),
- `ExchangeRateExtractor.get_rate_from_file` (src/extract/api_extractor.py),
- `IncrementalCSVLoader.load_incremental` and
  `IncrementalCSVLoader._update_consolidated` (src/load/file_loader.py).

Floats are modelled as rationals (`ℚ`); Python dictionaries as association
lists with `List.lookup`; Python truthiness of an optional float (`if rate:`)
as "present and nonzero"; a raised exception as `Except.error`.
-/

/-- A rate snapshot as read from the persisted JSON file: `data["base"]`
and `data["rates"]`.  The rates dictionary is an association list with
unique keys, looked up with `rates_get`. -/
structure RateSnapshot where
  base : String
  rates : List (String × ℚ)

/-- `rates.get(c)` on the Python dict: first matching key, `none` if absent. -/
def rates_get (rates : List (String × ℚ)) (c : String) : Option ℚ :=
  rates.lookup c

/-- Python truthiness filter on an optional float: `if rate:` succeeds
exactly when the value is present and nonzero (0.0 is falsy). -/
def truthy (o : Option ℚ) : Option ℚ :=
  match o with
  | some r => if r = 0 then none else some r
  | none => none

/-- `ExchangeRateExtractor.get_rate_from_file` (src/extract/api_extractor.py,
lines 84-114), applied to the same snapshot that `_get_exchange_rate` read:
if the file base equals the requested base, return `rates.get(target)`
directly (even when it is 0.0 or absent); otherwise return
`rates[target] / rates[base]` when `usd_rate and gbp_rate and usd_rate != 0`
holds under Python truthiness, else `None`. -/
def get_rate_from_file (s : RateSnapshot) (base target : String) : Option ℚ :=
  if s.base = base then
    rates_get s.rates target
  else
    match rates_get s.rates base, rates_get s.rates target with
    | some b, some t => if b ≠ 0 ∧ (t ≠ 0 ∧ b ≠ 0) then some (t / b) else none
    | _, _ => none

/-- Method 1 of `_get_exchange_rate` (lines 37-42): when the file base equals
the requested base, `rate = rates.get(target)`; `if rate: return rate`. -/
def method1 (s : RateSnapshot) (base target : String) : Option ℚ :=
  if s.base = base then truthy (rates_get s.rates target) else none

/-- Method 2 of `_get_exchange_rate` (lines 44-54): the cross-rate
`target_rate / base_rate`, guarded by the Python condition
`base_rate and target_rate and base_rate != 0`. -/
def method2 (s : RateSnapshot) (base target : String) : Option ℚ :=
  match rates_get s.rates base, rates_get s.rates target with
  | some b, some t => if b ≠ 0 ∧ (t ≠ 0 ∧ b ≠ 0) then some (t / b) else none
  | _, _ => none

/-- The error message raised when every method fails (line 65), reporting the
requested pair; the available codes are logged alongside (lines 61-62). -/
def rate_not_found_msg (base target : String) (codes : List String) : String :=
  "Taxa " ++ base ++ "->" ++ target ++ " nao encontrada; moedas: " ++
    String.intercalate "," codes

/-- `MarketCapTransformer._get_exchange_rate` (lines 21-65) on an in-memory
snapshot: try Method 1 (direct lookup), then Method 2 (cross-rate), then
Method 3 (`get_rate_from_file` on the same file, its result again filtered by
`if rate:`), and raise `ValueError` when all fail. -/
def get_exchange_rate (s : RateSnapshot) (base target : String) :
    Except String ℚ :=
  match method1 s base target with
  | some r => Except.ok r
  | none =>
    match method2 s base target with
    | some r => Except.ok r
    | none =>
      match truthy (get_rate_from_file s base target) with
      | some r => Except.ok r
      | none =>
        Except.error (rate_not_found_msg base target (s.rates.map Prod.fst))

/-- The direct-lookup success condition as the code implements it: snapshot
base equals the requested base, and the target is present with a nonzero
(truthy) rate. -/
def directOk (s : RateSnapshot) (base target : String) : Prop :=
  s.base = base ∧ ∃ r, rates_get s.rates target = some r ∧ r ≠ 0

/-- The cross-rate success condition as the code implements it: requested
base and target both present, both with nonzero (truthy) rates. -/
def crossOk (s : RateSnapshot) (base target : String) : Prop :=
  ∃ b t, rates_get s.rates base = some b ∧ rates_get s.rates target = some t ∧
    b ≠ 0 ∧ t ≠ 0

lemma truthy_eq_none_iff (o : Option ℚ) :
    truthy o = none ↔ ¬ ∃ r, o = some r ∧ r ≠ 0 := by
  cases o with
  | none => simp [truthy]
  | some r =>
    by_cases h0 : r = 0 <;> simp [truthy, h0]

lemma method1_eq_none_iff (s : RateSnapshot) (base target : String) :
    method1 s base target = none ↔ ¬ directOk s base target := by
  unfold method1 directOk
  by_cases hb : s.base = base
  · simp [hb, truthy_eq_none_iff]
  · simp [hb]

lemma method2_eq_none_iff (s : RateSnapshot) (base target : String) :
    method2 s base target = none ↔ ¬ crossOk s base target := by
  unfold method2 crossOk
  cases hbv : rates_get s.rates base with
  | none => simp [hbv]
  | some b =>
    cases htv : rates_get s.rates target with
    | none => simp [hbv, htv]
    | some t =>
      by_cases hb0 : b = 0
      · simp [hbv, htv, hb0]
      · by_cases ht0 : t = 0 <;> simp [hbv, htv, hb0, ht0]

lemma method3_eq_none (s : RateSnapshot) (base target : String)
    (h1 : method1 s base target = none) (h2 : method2 s base target = none) :
    truthy (get_rate_from_file s base target) = none := by
  by_cases hb : s.base = base
  · have he : get_rate_from_file s base target = rates_get s.rates target := by
      simp [get_rate_from_file, hb]
    rw [he]
    simpa [method1, hb] using h1
  · have he : get_rate_from_file s base target = method2 s base target := by
      simp [get_rate_from_file, method2, hb]
    rw [he, h2]
    rfl

lemma get_exchange_rate_error_iff (s : RateSnapshot) (base target : String) :
    get_exchange_rate s base target =
      Except.error (rate_not_found_msg base target (s.rates.map Prod.fst)) ↔
    method1 s base target = none ∧ method2 s base target = none := by
  constructor
  · intro h
    cases h1 : method1 s base target with
    | some r => simp [get_exchange_rate, h1] at h
    | none =>
      cases h2 : method2 s base target with
      | some r => simp [get_exchange_rate, h1, h2] at h
      | none => exact ⟨rfl, rfl⟩
  · rintro ⟨h1, h2⟩
    simp [get_exchange_rate, h1, h2, method3_eq_none s base target h1 h2]

lemma get_exchange_rate_ok_iff (s : RateSnapshot) (base target : String) :
    (∃ r, get_exchange_rate s base target = Except.ok r) ↔
    directOk s base target ∨ crossOk s base target := by
  constructor
  · rintro ⟨r, hr⟩
    by_cases hd : directOk s base target
    · exact Or.inl hd
    · by_cases hc : crossOk s base target
      · exact Or.inr hc
      · exfalso
        have h1 : method1 s base target = none :=
          (method1_eq_none_iff s base target).mpr hd
        have h2 : method2 s base target = none :=
          (method2_eq_none_iff s base target).mpr hc
        rw [(get_exchange_rate_error_iff s base target).mpr ⟨h1, h2⟩] at hr
        exact Except.noConfusion hr
  · intro h
    unfold get_exchange_rate
    cases h1 : method1 s base target with
    | some r => exact ⟨r, rfl⟩
    | none =>
      cases h2 : method2 s base target with
      | some r => exact ⟨r, rfl⟩
      | none =>
        exfalso
        rcases h with hd | hc
        · exact (method1_eq_none_iff s base target).mp h1 hd
        · exact (method2_eq_none_iff s base target).mp h2 hc

lemma method1_eq_some (s : RateSnapshot) (base target : String) (r : ℚ)
    (hb : s.base = base) (hr : rates_get s.rates target = some r) (h0 : r ≠ 0) :
    method1 s base target = some r := by
  simp [method1, hb, hr, truthy, h0]

lemma method2_eq_some (s : RateSnapshot) (base target : String) (b t : ℚ)
    (hbv : rates_get s.rates base = some b)
    (htv : rates_get s.rates target = some t)
    (hb0 : b ≠ 0) (ht0 : t ≠ 0) :
    method2 s base target = some (t / b) := by
  simp [method2, hbv, htv, hb0, ht0]

lemma method2_eq_none_of_target_zero (s : RateSnapshot) (base target : String)
    (ht : rates_get s.rates target = some 0) :
    method2 s base target = none := by
  cases hbv : rates_get s.rates base with
  | none => simp [method2, hbv]
  | some b => simp [method2, hbv, ht]

/-- C1 (counterexample): with snapshot base `EUR` and rates
`{USD: 2, GBP: 0}`, both requested currencies are present and the
rate for the requested base is nonzero, yet a `USD -> GBP` request does not
return `rates[GBP] / rates[USD] = 0 / 2`: the truthiness guard on the target
rate makes every method fail and the call raises. -/
theorem c1_counterexample :
    rates_get [("USD", 2), ("GBP", 0)] "USD" = some 2 ∧
    rates_get [("USD", 2), ("GBP", 0)] "GBP" = some 0 ∧
    get_exchange_rate ⟨"EUR", [("USD", 2), ("GBP", 0)]⟩ "USD" "GBP" ≠
      Except.ok ((0 : ℚ) / 2) ∧
    get_exchange_rate ⟨"EUR", [("USD", 2), ("GBP", 0)]⟩ "USD" "GBP" =
      Except.error (rate_not_found_msg "USD" "GBP" ["USD", "GBP"]) := by
  refine ⟨rfl, rfl, ?_, ?_⟩ <;> simp [get_exchange_rate, method1, method2, truthy,
    rates_get, get_rate_from_file, List.lookup, rate_not_found_msg]

/-- C1 (amended): for every snapshot whose base differs from the requested
base, if the requested base and target are both present in the rates map and
both rates are nonzero, `_get_exchange_rate` returns
`rates[target] / rates[base]` via the cross-rate method. -/
theorem c1_cross_rate (s : RateSnapshot) (base target : String) (b t : ℚ)
    (hb : s.base ≠ base)
    (hbv : rates_get s.rates base = some b)
    (htv : rates_get s.rates target = some t)
    (hb0 : b ≠ 0) (ht0 : t ≠ 0) :
    get_exchange_rate s base target = Except.ok (t / b) := by
  have h1 : method1 s base target = none := by simp [method1, hb]
  have h2 := method2_eq_some s base target b t hbv htv hb0 ht0
  simp [get_exchange_rate, h1, h2]

/-- C1 (witness): the spec's end-to-end scenario, snapshot
`{base: EUR, rates: {USD: 1.1, GBP: 0.85}}`, request `USD -> GBP`,
returns `0.85 / 1.1`. -/
theorem c1_cross_rate_witness :
    get_exchange_rate ⟨"EUR", [("USD", 11/10), ("GBP", 17/20)]⟩ "USD" "GBP" =
      Except.ok ((17/20) / (11/10)) :=
  c1_cross_rate ⟨"EUR", [("USD", 11/10), ("GBP", 17/20)]⟩ "USD" "GBP"
    (11/10) (17/20) (by decide) rfl rfl (by norm_num) (by norm_num)

/-- C4 (counterexample): snapshot base `USD`, rates `{CHF: 0}`, request
`USD -> CHF`.  The claim's direct-lookup condition (base equal, target
present) holds, so per the claim resolution must not raise — but the code's
truthiness guard rejects the present 0.0 rate and the call raises. -/
theorem c4_counterexample :
    (⟨"USD", [("CHF", 0)]⟩ : RateSnapshot).base = "USD" ∧
    rates_get [("CHF", 0)] "CHF" = some 0 ∧
    get_exchange_rate ⟨"USD", [("CHF", 0)]⟩ "USD" "CHF" =
      Except.error (rate_not_found_msg "USD" "CHF" ["CHF"]) := by
  refine ⟨rfl, rfl, ?_⟩
  simp [get_exchange_rate, method1, method2, truthy, rates_get,
    get_rate_from_file, List.lookup, rate_not_found_msg]

/-- C4 (amended): `_get_exchange_rate` raises the rate-not-found error,
reporting the requested pair and the available codes, exactly when neither
the direct lookup (snapshot base equals requested base and the target is
present with a nonzero rate) nor the cross-rate computation (requested base
and target both present with nonzero rates) succeeds; and it returns a value
exactly when one of the two succeeds. -/
theorem c4_error_characterization (s : RateSnapshot) (base target : String) :
    (get_exchange_rate s base target =
      Except.error (rate_not_found_msg base target (s.rates.map Prod.fst)) ↔
      ¬ directOk s base target ∧ ¬ crossOk s base target) ∧
    ((∃ r, get_exchange_rate s base target = Except.ok r) ↔
      directOk s base target ∨ crossOk s base target) := by
  constructor
  · rw [get_exchange_rate_error_iff, method1_eq_none_iff, method2_eq_none_iff]
  · exact get_exchange_rate_ok_iff s base target

/-- C8: when the requested base and target are the same currency and that
currency is not a key of the rates map, `_get_exchange_rate` does not return
`1.0`: every method falls through and the call raises. -/
theorem c8_same_currency_missing (s : RateSnapshot) (c : String)
    (h : rates_get s.rates c = none) :
    get_exchange_rate s c c ≠ Except.ok 1 ∧
    get_exchange_rate s c c =
      Except.error (rate_not_found_msg c c (s.rates.map Prod.fst)) := by
  have h1 : method1 s c c = none := by
    by_cases hb : s.base = c <;> simp [method1, hb, h, truthy]
  have h2 : method2 s c c = none := by simp [method2, h]
  have herr := (get_exchange_rate_error_iff s c c).mpr ⟨h1, h2⟩
  refine ⟨?_, herr⟩
  rw [herr]
  exact fun hcon => Except.noConfusion hcon

/-- C8 (witness): snapshot base `EUR` with rates `{USD: 3}`; the request
`JPY -> JPY` raises instead of returning `1.0`. -/
theorem c8_same_currency_missing_witness :
    rates_get [("USD", 3)] "JPY" = none ∧
    (get_exchange_rate ⟨"EUR", [("USD", 3)]⟩ "JPY" "JPY" ≠ Except.ok 1 ∧
     get_exchange_rate ⟨"EUR", [("USD", 3)]⟩ "JPY" "JPY" =
       Except.error (rate_not_found_msg "JPY" "JPY" ["USD"])) :=
  ⟨rfl, c8_same_currency_missing ⟨"EUR", [("USD", 3)]⟩ "JPY" rfl⟩

/-- C9 (counterexample): snapshot base `GBP` with rates `{USD: 2}`.  The
call `resolve(s, target, base)` with `target = GBP = s.base`, `base = USD`
hits the direct-lookup branch and returns `rates[USD] = 2`, not the claimed
reciprocal `1 / rates[USD] = 1/2`. -/
theorem c9_counterexample :
    get_exchange_rate ⟨"GBP", [("USD", 2)]⟩ "GBP" "USD" ≠
      Except.ok ((1 : ℚ) / 2) ∧
    get_exchange_rate ⟨"GBP", [("USD", 2)]⟩ "GBP" "USD" = Except.ok 2 := by
  constructor
  · intro h
    rw [show get_exchange_rate ⟨"GBP", [("USD", 2)]⟩ "GBP" "USD" =
        Except.ok 2 from rfl] at h
    have : (2 : ℚ) = 1 / 2 := by injection h
    norm_num at this
  · rfl

/-- C9 (amended): for every snapshot whose base equals the target currency,
`resolve(snapshot, target, base)` hits the direct-lookup branch and returns
`snapshot.rates[base]` itself (not its reciprocal), provided that rate is
present and nonzero. -/
theorem c9_swapped_pair_direct (s : RateSnapshot) (base target : String)
    (r : ℚ) (hb : s.base = target)
    (hr : rates_get s.rates base = some r) (h0 : r ≠ 0) :
    get_exchange_rate s target base = Except.ok r := by
  have h1 := method1_eq_some s target base r hb hr h0
  simp [get_exchange_rate, h1]

/-- C9 (witness): snapshot base `GBP`, rates `{USD: 4}`:
`resolve(s, GBP, USD)` returns `4`. -/
theorem c9_swapped_pair_direct_witness :
    get_exchange_rate ⟨"GBP", [("USD", 4)]⟩ "GBP" "USD" = Except.ok 4 :=
  c9_swapped_pair_direct ⟨"GBP", [("USD", 4)]⟩ "USD" "GBP" 4 rfl rfl
    (by norm_num)

/-- C10: when the snapshot base equals the requested base and the requested
target is present in the rates map with value exactly `0.0`, the direct
lookup's truthiness guard rejects the present value; the cross-rate and
file-based methods also fail (both also require a truthy target rate), so
the call raises instead of returning `0.0`. -/
theorem c10_zero_rate_falls_through (s : RateSnapshot) (base target : String)
    (hb : s.base = base) (ht : rates_get s.rates target = some 0) :
    get_exchange_rate s base target ≠ Except.ok 0 ∧
    get_exchange_rate s base target =
      Except.error (rate_not_found_msg base target (s.rates.map Prod.fst)) := by
  have h1 : method1 s base target = none := by simp [method1, hb, ht, truthy]
  have h2 := method2_eq_none_of_target_zero s base target ht
  have herr := (get_exchange_rate_error_iff s base target).mpr ⟨h1, h2⟩
  refine ⟨?_, herr⟩
  rw [herr]
  exact fun hcon => Except.noConfusion hcon

/-- C10 (witness): snapshot base `USD`, rates `{JPY: 0}`: the request
`USD -> JPY` raises rather than returning the present `0.0`. -/
theorem c10_zero_rate_falls_through_witness :
    (⟨"USD", [("JPY", 0)]⟩ : RateSnapshot).base = "USD" ∧
    rates_get [("JPY", 0)] "JPY" = some 0 ∧
    (get_exchange_rate ⟨"USD", [("JPY", 0)]⟩ "USD" "JPY" ≠ Except.ok 0 ∧
     get_exchange_rate ⟨"USD", [("JPY", 0)]⟩ "USD" "JPY" =
       Except.error (rate_not_found_msg "USD" "JPY" ["JPY"])) :=
  ⟨rfl, rfl, c10_zero_rate_falls_through ⟨"USD", [("JPY", 0)]⟩ "USD" "JPY"
    rfl rfl⟩

/-- The incoming rows whose key is not already present: pandas
`df[~df[key_column].astype(str).isin(existing_keys)]`
(src/load/file_loader.py, lines 43-44), with `key` standing for reading the
key column as a string. -/
def new_records {α : Type} (key : α → String) (ex incoming : List α) :
    List α :=
  incoming.filter (fun r => !((ex.map key).contains (key r)))

/-- The daily-file merge of `IncrementalCSVLoader.load_incremental`
(src/load/file_loader.py, lines 38-69).  First component: the daily file's
content after the call — when the daily file pre-exists,
`pd.concat([existing_df, new_records])` if `new_records` is nonempty, else
the existing frame unchanged (lines 46-53); when absent, the incoming frame
verbatim (lines 54-57).  Second component: the `new_rows` field of the
appended history entry (line 68),
`len(df) if not daily_file.exists() else len(new_records) if 'new_records'
in locals() else 0` — evaluated after the daily file has been written on
every path (line 55 creates it when it was absent), so `daily_file.exists()`
is true by then, and `new_records` is bound only on the pre-existing path;
on the fresh path the field is therefore `0`. -/
def load_incremental {α : Type} (key : α → String)
    (existing : Option (List α)) (incoming : List α) : List α × Nat :=
  match existing with
  | some ex =>
    let nr := new_records key ex incoming
    (if nr.isEmpty then ex else ex ++ nr, nr.length)
  | none => (incoming, 0)

/-- The consolidated-file merge of
`IncrementalCSVLoader._update_consolidated` (src/load/file_loader.py,
lines 76-91): drop every existing row whose key occurs among the incoming
keys, then append the incoming frame; when no consolidated file exists, the
incoming frame alone. -/
def update_consolidated {α : Type} (key : α → String)
    (existing : Option (List α)) (incoming : List α) : List α :=
  match existing with
  | some ex =>
    ex.filter (fun r => !((incoming.map key).contains (key r))) ++ incoming
  | none => incoming

/-- The spec's `merge_daily` contract, written from its words: absent
existing file gives the incoming batch; otherwise the existing rows followed
by exactly those incoming rows whose key is not among the existing keys. -/
def merge_daily_spec {α : Type} (key : α → String)
    (existing : Option (List α)) (incoming : List α) : List α :=
  match existing with
  | none => incoming
  | some ex => ex ++ incoming.filter (fun r => decide (key r ∉ ex.map key))

/-- The spec's `merge_consolidated` contract, written from its words: the
existing rows whose key is not being refreshed, followed by the incoming
rows; absent existing file gives the incoming batch. -/
def merge_consolidated_spec {α : Type} (key : α → String)
    (existing : Option (List α)) (incoming : List α) : List α :=
  match existing with
  | none => incoming
  | some ex =>
    ex.filter (fun r => decide (key r ∉ incoming.map key)) ++ incoming

lemma new_records_eq_filter_mem {α : Type} (key : α → String)
    (ex incoming : List α) :
    new_records key ex incoming =
      incoming.filter (fun r => decide (key r ∉ ex.map key)) := by
  unfold new_records
  apply List.filter_congr
  intro r _
  by_cases h : key r ∈ ex.map key <;> simp [h, List.elem_iff]

/-- C2: the daily merge returns the incoming batch verbatim when no daily
file pre-exists, and otherwise the existing rows unchanged and in order,
followed by exactly those incoming rows whose key is not among the existing
keys, in incoming order — the content computed by the pandas code equals the
spec's `merge_daily` contract on every input. -/
theorem c2_daily_merge_refines_spec {α : Type} (key : α → String)
    (existing : Option (List α)) (incoming : List α) :
    (load_incremental key existing incoming).1 =
      merge_daily_spec key existing incoming := by
  cases existing with
  | none => rfl
  | some ex =>
    show (if (new_records key ex incoming).isEmpty then ex
          else ex ++ new_records key ex incoming) = _
    rw [new_records_eq_filter_mem]
    by_cases hemp : (incoming.filter (fun r => decide (key r ∉ ex.map key))).isEmpty
    · rw [if_pos hemp]
      rw [List.isEmpty_iff] at hemp
      show ex = ex ++ _
      rw [hemp, List.append_nil]
    · rw [if_neg hemp]
      rfl

/-- C3: the consolidated merge keeps exactly the existing rows whose key
does not occur among the incoming keys, in their original order, and appends
the incoming rows after them, so incoming wins every key collision; with no
existing file it returns the incoming batch.  In particular merging existing
`[(K, 10)]` with incoming `[(K, 20)]` yields `[(K, 20)]`. -/
theorem c3_consolidated_merge_refines_spec :
    (∀ (α : Type) (key : α → String) (existing : Option (List α))
      (incoming : List α),
      update_consolidated key existing incoming =
        merge_consolidated_spec key existing incoming) ∧
    update_consolidated Prod.fst (some [("K", (10 : ℚ))]) [("K", 20)] =
      [("K", 20)] := by
  constructor
  · intro α key existing incoming
    cases existing with
    | none => rfl
    | some ex =>
      show ex.filter _ ++ incoming = ex.filter _ ++ incoming
      congr 1
      apply List.filter_congr
      intro r _
      by_cases h : key r ∈ incoming.map key <;> simp [h, List.elem_iff]
  · rfl

/-- C5: when no daily file previously existed, the history entry's
`new_rows` field is `0`, not the size of the incoming batch: by the time the
expression `len(df) if not daily_file.exists() else ...` runs, the daily
file has just been created, and `new_records` was never bound on that path.
Here a one-record batch is loaded into a fresh day and `new_rows` comes out
`0`, not `1`. -/
theorem c5_fresh_day_new_rows_is_zero :
    (load_incremental (fun r => r) none ["Bank A"]).2 = 0 ∧
    (["Bank A"] : List String).length = 1 :=
  ⟨rfl, rfl⟩

/-- A pandas cell value as seen by `_clean_numeric_value`
(src/transform/market_cap_transformer.py, lines 85-109): missing (`None`),
float NaN (both satisfy `pd.isna`), an int or float, or a string. -/
inductive PyValue where
  | none
  | nan
  | num (x : ℚ)
  | str (s : String)

/-- Python `str.strip()`: leading and trailing whitespace removed. -/
def strip_ws (cs : List Char) : List Char :=
  ((cs.dropWhile Char.isWhitespace).reverse.dropWhile Char.isWhitespace).reverse

/-- The character class kept by `re.sub(r'[^\d\.\,\-]', '', str_value)`. -/
def keep_char (c : Char) : Bool :=
  c.isDigit || c == '.' || c == ',' || c == '-'

/-- Lines 93-99 of `_clean_numeric_value` applied to string input: strip,
drop every character that is not a digit, dot, comma or minus, turn commas
into dots when the string has commas but no dot, then drop the remaining
commas. -/
def normalize_numeric (s : String) : List Char :=
  let s1 := strip_ws s.data
  let s2 := s1.filter keep_char
  let s3 := if s2.contains ',' && !(s2.contains '.') then
      s2.map (fun c => if c == ',' then '.' else c)
    else s2
  s3.filter (fun c => !(c == ','))

/-- The value of a digit string, most significant first. -/
def digits_val (ds : List Char) : Nat :=
  ds.foldl (fun a c => 10 * a + (c.toNat - 48)) 0

/-- Python `float()` on an unsigned numeric string made of the characters
that survive `normalize_numeric`: an integer part and an optional fractional
part separated by at most one dot, with at least one digit in total; any
other shape raises `ValueError` (here: `none`). -/
def parse_unsigned (cs : List Char) : Option ℚ :=
  match cs.splitOn '.' with
  | [ds] =>
    if ds ≠ [] ∧ ds.all Char.isDigit then some ((digits_val ds : ℕ) : ℚ)
    else Option.none
  | [ip, fp] =>
    if (ip ≠ [] ∨ fp ≠ []) ∧ ip.all Char.isDigit ∧ fp.all Char.isDigit then
      some (((digits_val ip : ℕ) : ℚ) +
        ((digits_val fp : ℕ) : ℚ) / (10 : ℚ) ^ fp.length)
    else Option.none
  | _ => Option.none

/-- Python `float()` on a possibly signed numeric string: an optional
leading minus, then an unsigned numeral (a `+` sign cannot survive the
regex of line 94). -/
def parse_float (cs : List Char) : Option ℚ :=
  if cs.head? = some '-' then (parse_unsigned cs.tail).map (fun q => -q)
  else parse_unsigned cs

/-- `_clean_numeric_value` on a string (lines 92-109): normalize, map the
empty string and a bare `"-"` to `0.0`, otherwise `float(...)`, with the
`ValueError` of an unparseable string caught and turned into `0.0`. -/
def clean_numeric_str (s : String) : ℚ :=
  if normalize_numeric s = [] ∨ normalize_numeric s = ['-'] then 0
  else (parse_float (normalize_numeric s)).getD 0

/-- `MarketCapTransformer._clean_numeric_value` (lines 85-109): `pd.isna`
input gives `0.0`, an int or float is returned as a float, a string goes
through cleaning and parsing. -/
def clean_numeric_value : PyValue → ℚ
  | .none => 0
  | .nan => 0
  | .num x => x
  | .str s => clean_numeric_str s

lemma parse_unsigned_nonneg (cs : List Char) (q : ℚ)
    (h : parse_unsigned cs = some q) : 0 ≤ q := by
  unfold parse_unsigned at h
  split at h
  · split at h
    · injection h with h
      rw [← h]
      positivity
    · exact absurd h (by simp)
  · split at h
    · injection h with h
      rw [← h]
      positivity
    · exact absurd h (by simp)
  · exact absurd h (by simp)

lemma parse_float_nonneg (cs : List Char) (q : ℚ) (hm : '-' ∉ cs)
    (h : parse_float cs = some q) : 0 ≤ q := by
  unfold parse_float at h
  split at h
  · rename_i hh
    exact absurd (List.mem_of_mem_head? hh) hm
  · exact parse_unsigned_nonneg cs q h

lemma mem_strip_ws (cs : List Char) (c : Char) (h : c ∈ strip_ws cs) :
    c ∈ cs := by
  unfold strip_ws at h
  rw [List.mem_reverse] at h
  have h2 := (List.dropWhile_sublist Char.isWhitespace).mem h
  rw [List.mem_reverse] at h2
  exact (List.dropWhile_sublist Char.isWhitespace).mem h2

lemma mem_normalize_numeric (s : String) (c : Char)
    (h : c ∈ normalize_numeric s) : c = '.' ∨ c ∈ s.data := by
  unfold normalize_numeric at h
  have h3 := List.mem_of_mem_filter h
  split at h3
  · rw [List.mem_map] at h3
    obtain ⟨c0, hc0, hmap⟩ := h3
    by_cases hcomma : c0 = ','
    · left
      rw [← hmap, hcomma]
      rfl
    · right
      rw [show c = c0 by rw [← hmap]; simp [hcomma]]
      exact mem_strip_ws _ _ (List.mem_of_mem_filter hc0)
  · exact Or.inr (mem_strip_ws _ _ (List.mem_of_mem_filter h3))

/-- An input that does not carry a negative number: `None`, NaN, a
nonnegative int or float, or a string with no minus sign. -/
def non_negative_input : PyValue → Prop
  | .none => True
  | .nan => True
  | .num x => 0 ≤ x
  | .str s => '-' ∉ s.data

/-- C7 (counterexample): a negative input passes through numeric cleaning
unchanged — `-5` (as an int or as the string `"-5"`) cleans to `-5.0`,
which is not `≥ 0`. -/
theorem c7_counterexample :
    ¬ (0 ≤ clean_numeric_value (.num (-5))) ∧
    clean_numeric_value (.num (-5)) = -5 ∧
    clean_numeric_value (.str "-5") = -5 := by
  refine ⟨by norm_num [clean_numeric_value], rfl, ?_⟩
  have h : clean_numeric_value (.str "-5") = -(((5 : ℕ) : ℚ)) := rfl
  rw [h]
  norm_num

/-- C7 (amended): numeric cleaning returns a value `≥ 0` for every input
that does not carry a negative number (`None`, NaN, a nonnegative number, or
a string with no minus sign), and coerces every unparseable string to `0`;
a negative input, however, passes through with its sign. -/
theorem c7_clean_nonneg :
    (∀ v, non_negative_input v → 0 ≤ clean_numeric_value v) ∧
    (∀ s, parse_float (normalize_numeric s) = Option.none →
      clean_numeric_value (.str s) = 0) := by
  constructor
  · intro v hv
    match v with
    | .none => exact le_refl 0
    | .nan => exact le_refl 0
    | .num x => exact hv
    | .str s =>
      show 0 ≤ clean_numeric_str s
      unfold clean_numeric_str
      split
      · exact le_refl 0
      · cases hp : parse_float (normalize_numeric s) with
        | none => simp
        | some q =>
          have hm : '-' ∉ normalize_numeric s := by
            intro hmem
            rcases mem_normalize_numeric s '-' hmem with hdot | hins
            · exact absurd hdot (by decide)
            · exact hv hins
          simpa using parse_float_nonneg _ q hm hp
  · intro s hp
    show clean_numeric_str s = 0
    unfold clean_numeric_str
    split
    · rfl
    · rw [hp]
      rfl

/-- C7 (witness): the string `"1.5"` has no minus sign and cleans to a
nonnegative value; the string `"abc"` is unparseable and cleans to `0`. -/
theorem c7_clean_nonneg_witness :
    non_negative_input (.str "1.5") ∧
    0 ≤ clean_numeric_value (.str "1.5") ∧
    parse_float (normalize_numeric "abc") = Option.none ∧
    clean_numeric_value (.str "abc") = 0 :=
  ⟨(by decide : ('-' ∉ "1.5".data)),
    c7_clean_nonneg.1 (.str "1.5") (by decide : ('-' ∉ "1.5".data)), rfl,
    c7_clean_nonneg.2 "abc" rfl⟩

/-- C6: numeric cleaning maps the string `"1,234.5"` to `1234.5`, the
string `"-"` to `0.0`, and `None` or NaN input to `0.0`. -/
theorem c6_clean_examples :
    clean_numeric_value (.str "1,234.5") = 12345 / 10 ∧
    clean_numeric_value (.str "-") = 0 ∧
    clean_numeric_value .none = 0 ∧
    clean_numeric_value .nan = 0 := by
  refine ⟨?_, rfl, rfl, rfl⟩
  have h : clean_numeric_value (.str "1,234.5") =
      ((1234 : ℕ) : ℚ) + ((5 : ℕ) : ℚ) / (10 : ℚ) ^ (1 : ℕ) := rfl
  rw [h]
  norm_num
